import Mathlib

/-!
Verification of the option-chain pricing engine of the stock-options
repository: the Black-Scholes pricer (server/optionCalc.js), the strike and
expiry ladder construction and the per-strike failure handling of the
options route handler (server code), the historical-volatility estimator,
and the retry/backoff policy of the remote backfill client.

Real-valued JavaScript arithmetic is embedded as arithmetic on the real
numbers; integer quantities (days, milliseconds, retry delays) as Int/Nat;
exact decimal quantities such as strike ladders as rationals. Functions
that can throw are embedded as Except-valued functions.
-/

open scoped Classical

namespace StockOptions

/-! ## normalCDF (server/optionCalc.js lines 14-22)
t = 1 / (1 + 0.2316419 |x|), d = 0.3989423 exp(-x^2/2),
prob = d * t * poly(t), flipped to 1 - prob for x > 0. -/

/-- The degree-4 polynomial of the rational-polynomial CDF approximation,
in Horner form exactly as line 17 of optionCalc.js writes it. -/
def cndPoly (t : ℝ) : ℝ :=
  0.3193815 + t * (-0.3565638 + t * (1.781478 + t * (-1.821256 + t * 1.330274)))

/-- The value `d * t * poly(t)` computed by normalCDF before the sign flip. -/
noncomputable def cndProb (x : ℝ) : ℝ :=
  (0.3989423 * Real.exp (-x * x / 2)) * (1 / (1 + 0.2316419 * |x|)) *
    cndPoly (1 / (1 + 0.2316419 * |x|))

/-- normalCDF from server/optionCalc.js: the tail value for x <= 0, its
complement for x > 0. -/
noncomputable def normalCDF (x : ℝ) : ℝ :=
  if 0 < x then 1 - cndProb x else cndProb x

/-! ## blackScholes (server/optionCalc.js lines 34-62) -/

/-- d1 of the Black-Scholes formula as optionCalc.js line 51 computes it. -/
noncomputable def bsD1 (S K T r v : ℝ) : ℝ :=
  (Real.log (S / K) + (r + v * v / 2) * T) / (v * Real.sqrt T)

/-- d2 of the Black-Scholes formula as optionCalc.js line 52 computes it. -/
noncomputable def bsD2 (S K T r v : ℝ) : ℝ :=
  bsD1 S K T r v - v * Real.sqrt T

/-- blackScholes from server/optionCalc.js: input validation throws are
Except.error values; T below 0.00001 returns intrinsic value; otherwise the
closed-form price, with an error for an unknown option type string. -/
noncomputable def blackScholes (kind : String) (S K T r v : ℝ) : Except String ℝ :=
  if S ≤ 0 then Except.error "Stock price must be positive"
  else if K ≤ 0 then Except.error "Strike price must be positive"
  else if T ≤ 0 then Except.error "Time to expiration must be positive"
  else if v ≤ 0 then Except.error "Volatility must be positive"
  else if T < 0.00001 then
    if kind = "call" then Except.ok (max 0 (S - K))
    else Except.ok (max 0 (K - S))
  else
    if kind = "call" then
      Except.ok (S * normalCDF (bsD1 S K T r v) -
        K * Real.exp (-r * T) * normalCDF (bsD2 S K T r v))
    else if kind = "put" then
      Except.ok (K * Real.exp (-r * T) * normalCDF (-(bsD2 S K T r v)) -
        S * normalCDF (-(bsD1 S K T r v)))
    else Except.error "Invalid option type. Use \"call\" or \"put\"."

/-- The returned price, read out of the Except (0 when an error was thrown). -/
noncomputable def bsVal (kind : String) (S K T r v : ℝ) : ℝ :=
  ((blackScholes kind S K T r v).toOption).getD 0

/-! ### Bounds on the CDF approximation -/

lemma cndPoly_pos (t : ℝ) : 0 < cndPoly t := by
  have hq : 1.157 * (t * t) ≤ 1.330274 * (t * t) * (t * t) - 1.821256 * (t * (t * t)) +
      1.781478 * (t * t) := by
    nlinarith [sq_nonneg (2.660548 * t - 1.821256), sq_nonneg t]
  unfold cndPoly
  nlinarith [sq_nonneg (2.314 * t - 0.3565638)]

lemma cndPoly_le (t : ℝ) (ht0 : 0 ≤ t) (ht1 : t ≤ 1) : cndPoly t ≤ 2.1008595 := by
  unfold cndPoly
  nlinarith [mul_nonneg ht0 ht0, mul_nonneg (mul_nonneg ht0 ht0) ht0,
    mul_nonneg (mul_nonneg (mul_nonneg ht0 ht0) ht0) ht0]

lemma cndT_pos (x : ℝ) : 0 < 1 / (1 + 0.2316419 * |x|) := by
  have : (0:ℝ) < 1 + 0.2316419 * |x| := by positivity
  positivity

lemma cndT_le_one (x : ℝ) : 1 / (1 + 0.2316419 * |x|) ≤ 1 := by
  have h : (1:ℝ) ≤ 1 + 0.2316419 * |x| := by
    have := abs_nonneg x
    nlinarith
  exact (div_le_one (by linarith)).mpr h

lemma cndProb_pos (x : ℝ) : 0 < cndProb x := by
  unfold cndProb
  have h1 : (0:ℝ) < 0.3989423 * Real.exp (-x * x / 2) := by positivity
  exact mul_pos (mul_pos h1 (cndT_pos x)) (cndPoly_pos _)

lemma cndProb_lt_one (x : ℝ) : cndProb x < 1 := by
  unfold cndProb
  set t := 1 / (1 + 0.2316419 * |x|) with ht
  have ht0 : 0 < t := cndT_pos x
  have ht1 : t ≤ 1 := cndT_le_one x
  have hexp : Real.exp (-x * x / 2) ≤ 1 := by
    rw [Real.exp_le_one_iff]
    nlinarith [mul_self_nonneg x]
  have hexp0 : 0 < Real.exp (-x * x / 2) := Real.exp_pos _
  have hpoly : cndPoly t ≤ 2.1008595 := cndPoly_le t ht0.le ht1
  have hpoly0 : 0 < cndPoly t := cndPoly_pos t
  nlinarith [mul_pos ht0 hpoly0]

lemma normalCDF_pos (x : ℝ) : 0 < normalCDF x := by
  unfold normalCDF
  split
  · linarith [cndProb_lt_one x]
  · exact cndProb_pos x

lemma normalCDF_lt_one (x : ℝ) : normalCDF x < 1 := by
  unfold normalCDF
  split
  · linarith [cndProb_pos x]
  · exact cndProb_lt_one x

lemma cndProb_neg (x : ℝ) : cndProb (-x) = cndProb x := by
  unfold cndProb
  rw [abs_neg]
  ring_nf

/-- The flip makes the approximate CDF exactly symmetric at every nonzero
argument: normalCDF x + normalCDF (-x) = 1 for x different from 0. -/
lemma normalCDF_add_neg (x : ℝ) (hx : x ≠ 0) : normalCDF x + normalCDF (-x) = 1 := by
  rcases lt_or_gt_of_ne hx with h | h
  · have h1 : ¬ (0 < x) := by linarith
    have h2 : 0 < -x := by linarith
    unfold normalCDF
    rw [if_neg h1, if_pos h2, cndProb_neg]
    ring
  · have h2 : ¬ (0 < -x) := by linarith
    unfold normalCDF
    rw [if_pos h, if_neg h2, cndProb_neg]
    ring

/-- For positive inputs and T below the 0.00001 threshold, blackScholes takes
the intrinsic-value branch of lines 42-48. -/
lemma blackScholes_tiny (kind : String) (S K T r v : ℝ) (hS : 0 < S) (hK : 0 < K)
    (hv : 0 < v) (hT : 0 < T) (hT5 : T < 0.00001) :
    blackScholes kind S K T r v =
      (if kind = "call" then Except.ok (max 0 (S - K)) else Except.ok (max 0 (K - S))) := by
  unfold blackScholes
  rw [if_neg (not_le.mpr hS), if_neg (not_le.mpr hK), if_neg (not_le.mpr hT),
    if_neg (not_le.mpr hv), if_pos hT5]

/-- Claim C7: for every S > 0, K > 0, v > 0 and every T with 0 < T < 0.00001,
blackScholes returns the intrinsic value max(0, S-K) for calls and
max(0, K-S) for puts instead of evaluating the formula; hence as T tends to 0
from the right the returned price tends to the intrinsic value. -/
theorem tiny_expiry_intrinsic (S K T r v : ℝ) (hS : 0 < S) (hK : 0 < K)
    (hv : 0 < v) (hT : 0 < T) (hT5 : T < 0.00001) :
    blackScholes "call" S K T r v = Except.ok (max 0 (S - K)) ∧
    blackScholes "put" S K T r v = Except.ok (max 0 (K - S)) ∧
    Filter.Tendsto (fun t => bsVal "call" S K t r v)
      (nhdsWithin 0 (Set.Ioi 0)) (nhds (max 0 (S - K))) ∧
    Filter.Tendsto (fun t => bsVal "put" S K t r v)
      (nhdsWithin 0 (Set.Ioi 0)) (nhds (max 0 (K - S))) := by
  have hmem : Set.Ioo (0:ℝ) 0.00001 ∈ nhdsWithin 0 (Set.Ioi (0:ℝ)) :=
    Ioo_mem_nhdsWithin_Ioi (by constructor <;> norm_num)
  refine ⟨?_, ?_, ?_, ?_⟩
  · rw [blackScholes_tiny _ _ _ _ _ _ hS hK hv hT hT5, if_pos rfl]
  · rw [blackScholes_tiny _ _ _ _ _ _ hS hK hv hT hT5, if_neg (by decide)]
  · refine Filter.Tendsto.congr' ?_ tendsto_const_nhds
    filter_upwards [hmem] with t ht
    rw [bsVal, blackScholes_tiny _ _ _ _ _ _ hS hK hv ht.1 ht.2, if_pos rfl]
    rfl
  · refine Filter.Tendsto.congr' ?_ tendsto_const_nhds
    filter_upwards [hmem] with t ht
    rw [bsVal, blackScholes_tiny _ _ _ _ _ _ hS hK hv ht.1 ht.2, if_neg (by decide)]
    rfl

/-- Witness for C7 at S = 3, K = 2, T = 1/200000, r = 0, v = 1. -/
theorem tiny_expiry_intrinsic_witness :
    blackScholes "call" 3 2 (1/200000) 0 1 = Except.ok (max 0 ((3:ℝ) - 2)) ∧
    blackScholes "put" 3 2 (1/200000) 0 1 = Except.ok (max 0 ((2:ℝ) - 3)) ∧
    Filter.Tendsto (fun t => bsVal "call" 3 2 t 0 1)
      (nhdsWithin 0 (Set.Ioi 0)) (nhds (max 0 ((3:ℝ) - 2))) ∧
    Filter.Tendsto (fun t => bsVal "put" 3 2 t 0 1)
      (nhdsWithin 0 (Set.Ioi 0)) (nhds (max 0 ((2:ℝ) - 3))) :=
  tiny_expiry_intrinsic 3 2 (1/200000) 0 1 (by norm_num) (by norm_num) (by norm_num)
    (by norm_num) (by norm_num)

/-- Claim C10: for S > 0, K > 0, v > 0 and 0 < T < 0.00001, any kind string
other than "call" (including invalid kinds) gets the put intrinsic value
max(0, K-S) back instead of the invalid-option-type error; that error can
only arise when T is at least 0.00001. -/
theorem tiny_expiry_invalid_kind (S K T r v : ℝ) (kind : String) (hS : 0 < S)
    (hK : 0 < K) (hv : 0 < v) (hT : 0 < T) (hT5 : T < 0.00001)
    (hkind : kind ≠ "call") :
    blackScholes kind S K T r v = Except.ok (max 0 (K - S)) ∧
    ∀ (S2 K2 T2 r2 v2 : ℝ) (kind2 : String),
      blackScholes kind2 S2 K2 T2 r2 v2 =
        Except.error "Invalid option type. Use \"call\" or \"put\"." →
      0.00001 ≤ T2 := by
  constructor
  · rw [blackScholes_tiny _ _ _ _ _ _ hS hK hv hT hT5, if_neg hkind]
  · intro S2 K2 T2 r2 v2 kind2 h
    unfold blackScholes at h
    split_ifs at h
    all_goals first
      | linarith
      | (injection h with hmsg; exact absurd hmsg (by decide))

/-- Witness for C10 at kind = "x", S = 3, K = 2, T = 1/200000, r = 0, v = 1. -/
theorem tiny_expiry_invalid_kind_witness :
    blackScholes "x" 3 2 (1/200000) 0 1 = Except.ok (max 0 ((2:ℝ) - 3)) ∧
    ∀ (S2 K2 T2 r2 v2 : ℝ) (kind2 : String),
      blackScholes kind2 S2 K2 T2 r2 v2 =
        Except.error "Invalid option type. Use \"call\" or \"put\"." →
      0.00001 ≤ T2 :=
  tiny_expiry_invalid_kind 3 2 (1/200000) 0 1 "x" (by norm_num) (by norm_num)
    (by norm_num) (by norm_num) (by norm_num) (by decide)

/-! ## Claim C1: put-call parity -/

/-- In the formula branch both kinds price successfully. -/
lemma blackScholes_formula (S K T r v : ℝ) (hS : 0 < S) (hK : 0 < K)
    (hT : 0.00001 ≤ T) (hv : 0 < v) :
    blackScholes "call" S K T r v =
      Except.ok (S * normalCDF (bsD1 S K T r v) -
        K * Real.exp (-r * T) * normalCDF (bsD2 S K T r v)) ∧
    blackScholes "put" S K T r v =
      Except.ok (K * Real.exp (-r * T) * normalCDF (-(bsD2 S K T r v)) -
        S * normalCDF (-(bsD1 S K T r v))) := by
  have hT0 : 0 < T := lt_of_lt_of_le (by norm_num) hT
  constructor
  · unfold blackScholes
    rw [if_neg (not_le.mpr hS), if_neg (not_le.mpr hK), if_neg (not_le.mpr hT0),
      if_neg (not_le.mpr hv), if_neg (not_lt.mpr hT), if_pos rfl]
  · unfold blackScholes
    rw [if_neg (not_le.mpr hS), if_neg (not_le.mpr hK), if_neg (not_le.mpr hT0),
      if_neg (not_le.mpr hv), if_neg (not_lt.mpr hT),
      if_neg (show ¬ ("put" = "call") by decide), if_pos rfl]

/-- Claim C1, amended: for S > 0, K > 0, T at least the 0.00001 threshold and
v > 0, whenever the computed d1 and d2 are both nonzero, the call and put
prices returned by blackScholes satisfy put-call parity exactly (hence within
any positive tolerance); at d1 = 0 or d2 = 0 the deviation can exceed 1e-6
(see the counterexample). -/
theorem put_call_parity_off_zero (S K T r v : ℝ) (hS : 0 < S) (hK : 0 < K)
    (hT : 0.00001 ≤ T) (hv : 0 < v)
    (hd1 : bsD1 S K T r v ≠ 0) (hd2 : bsD2 S K T r v ≠ 0) :
    blackScholes "call" S K T r v = Except.ok (bsVal "call" S K T r v) ∧
    blackScholes "put" S K T r v = Except.ok (bsVal "put" S K T r v) ∧
    bsVal "call" S K T r v - bsVal "put" S K T r v = S - K * Real.exp (-r * T) := by
  obtain ⟨hc, hp⟩ := blackScholes_formula S K T r v hS hK hT hv
  have hvc : bsVal "call" S K T r v = S * normalCDF (bsD1 S K T r v) -
      K * Real.exp (-r * T) * normalCDF (bsD2 S K T r v) := by
    rw [bsVal, hc]; rfl
  have hvp : bsVal "put" S K T r v = K * Real.exp (-r * T) * normalCDF (-(bsD2 S K T r v)) -
      S * normalCDF (-(bsD1 S K T r v)) := by
    rw [bsVal, hp]; rfl
  refine ⟨by rw [hvc]; exact hc, by rw [hvp]; exact hp, ?_⟩
  rw [hvc, hvp]
  have h1 := normalCDF_add_neg _ hd1
  have h2 := normalCDF_add_neg _ hd2
  linear_combination S * h1 - K * Real.exp (-r * T) * h2

/-- Witness for the amended C1 at S = 100, K = 100, T = 1, r = 0.02, v = 0.3
(there d1 = 13/60 and d2 = -1/12, both nonzero). -/
theorem put_call_parity_off_zero_witness :
    blackScholes "call" 100 100 1 0.02 0.3 = Except.ok (bsVal "call" 100 100 1 0.02 0.3) ∧
    blackScholes "put" 100 100 1 0.02 0.3 = Except.ok (bsVal "put" 100 100 1 0.02 0.3) ∧
    bsVal "call" 100 100 1 0.02 0.3 - bsVal "put" 100 100 1 0.02 0.3 =
      100 - 100 * Real.exp (-(0.02) * 1) :=
  put_call_parity_off_zero 100 100 1 0.02 0.3 (by norm_num) (by norm_num) (by norm_num)
    (by norm_num)
    (by rw [bsD1, show (100:ℝ)/100 = 1 by norm_num, Real.log_one, Real.sqrt_one]; norm_num)
    (by rw [bsD2, bsD1, show (100:ℝ)/100 = 1 by norm_num, Real.log_one, Real.sqrt_one]; norm_num)

/-- Counterexample to C1 as stated: at the valid inputs S = 100, K = 100,
T = 1, r = 0.02, v = 0.2 the computed d2 is exactly 0, where the CDF
approximation gives normalCDF 0 + normalCDF 0 = 0.99999970019902 rather than
1, so the parity defect is about 2.94e-5, larger than the 1e-6 tolerance. -/
theorem put_call_parity_counterexample :
    blackScholes "call" 100 100 1 0.02 0.2 = Except.ok (bsVal "call" 100 100 1 0.02 0.2) ∧
    blackScholes "put" 100 100 1 0.02 0.2 = Except.ok (bsVal "put" 100 100 1 0.02 0.2) ∧
    1/1000000 <
      |bsVal "call" 100 100 1 0.02 0.2 - bsVal "put" 100 100 1 0.02 0.2 -
        (100 - 100 * Real.exp (-(0.02) * 1))| := by
  have hd1v : bsD1 100 100 1 0.02 0.2 = 0.2 := by
    rw [bsD1, show (100:ℝ)/100 = 1 by norm_num, Real.log_one, Real.sqrt_one]; norm_num
  have hd2v : bsD2 100 100 1 0.02 0.2 = 0 := by
    rw [bsD2, hd1v, Real.sqrt_one]; norm_num
  obtain ⟨hc, hp⟩ := blackScholes_formula 100 100 1 0.02 0.2 (by norm_num) (by norm_num)
    (by norm_num) (by norm_num)
  rw [hd1v, hd2v] at hc hp
  rw [neg_zero] at hp
  have hvc : bsVal "call" 100 100 1 0.02 0.2 =
      100 * normalCDF 0.2 - 100 * Real.exp (-(0.02) * 1) * normalCDF 0 := by
    rw [bsVal, hc]; rfl
  have hvp : bsVal "put" 100 100 1 0.02 0.2 =
      100 * Real.exp (-(0.02) * 1) * normalCDF 0 - 100 * normalCDF (-0.2) := by
    rw [bsVal, hp]; rfl
  have hsum : normalCDF 0.2 + normalCDF (-0.2) = 1 := normalCDF_add_neg 0.2 (by norm_num)
  have hN0 : normalCDF 0 = 0.49999985009951 := by
    rw [normalCDF, if_neg (by norm_num), cndProb, abs_zero]
    norm_num [Real.exp_zero, cndPoly]
  have hE1 : Real.exp (-(0.02:ℝ) * 1) ≤ 1 := by
    rw [Real.exp_le_one_iff]; norm_num
  have hE2 : (0.98:ℝ) ≤ Real.exp (-(0.02:ℝ) * 1) := by
    have := Real.add_one_le_exp (-(0.02:ℝ) * 1); linarith
  refine ⟨by rw [hvc]; exact hc, by rw [hvp]; exact hp, ?_⟩
  rw [hvc, hvp, hN0]
  have hinner : 100 * normalCDF 0.2 - 100 * Real.exp (-(0.02) * 1) * 0.49999985009951 -
      (100 * Real.exp (-(0.02) * 1) * 0.49999985009951 - 100 * normalCDF (-0.2)) -
      (100 - 100 * Real.exp (-(0.02) * 1)) =
      Real.exp (-(0.02) * 1) * 0.000029980098 := by
    linear_combination (100:ℝ) * hsum
  rw [hinner, abs_of_pos (by positivity)]
  linarith

/-! ## Historical volatility (server/optionCalc.js lines 110-148) and the
volatility selection of the options route handler (server code lines 210-224) -/

/-- The daily-returns loop of calculateHistoricalVolatility lines 126-134:
pairs of consecutive closes, skipping any pair with a non-positive entry. -/
noncomputable def logReturns (prices : List ℝ) : List ℝ :=
  (prices.zip prices.tail).filterMap fun pr =>
    if pr.2 ≤ 0 ∨ pr.1 ≤ 0 then none else some (Real.log (pr.2 / pr.1))

/-- calculateHistoricalVolatility from server/optionCalc.js. The period
parameter feeds only the local actualPeriod of line 117, which the rest of
the function never reads, so it is unused here exactly as in the source.
Fewer than 2 prices, or no valid returns, give the default 0.3; otherwise
the population standard deviation of all returns, annualized by sqrt 365. -/
noncomputable def calculateHistoricalVolatility (prices : List ℝ) (period : ℕ) : ℝ :=
  if prices.length < 2 then 0.3
  else
    let returns := logReturns prices
    if returns.length = 0 then 0.3
    else
      let mean := returns.sum / (returns.length : ℝ)
      let variance := (returns.map (fun x => (x - mean) ^ 2)).sum / (returns.length : ℝ)
      Real.sqrt variance * Real.sqrt 365

/-- The volatility the options route handler uses for pricing: 0.25 unless
more than one close is available, in which case the historical volatility
clamped to [0.1, 0.8]. -/
noncomputable def routeVolatility (closingPrices : List ℝ) : ℝ :=
  if 1 < closingPrices.length then
    max 0.1 (min (calculateHistoricalVolatility closingPrices 30) 0.8)
  else 0.25

lemma logReturns_cons (p q : ℝ) (rest : List ℝ) (h : ¬ (q ≤ 0 ∨ p ≤ 0)) :
    logReturns (p :: q :: rest) = Real.log (q / p) :: logReturns (q :: rest) := by
  unfold logReturns
  simp only [List.tail_cons, List.zip_cons_cons, List.filterMap_cons]
  rw [if_neg h]

lemma logReturns_cons_skip (p q : ℝ) (rest : List ℝ) (h : q ≤ 0 ∨ p ≤ 0) :
    logReturns (p :: q :: rest) = logReturns (q :: rest) := by
  unfold logReturns
  simp only [List.tail_cons, List.zip_cons_cons, List.filterMap_cons]
  rw [if_pos h]

lemma logReturns_single (p : ℝ) : logReturns [p] = [] := rfl

lemma calcHV_formula (prices : List ℝ) (period : ℕ) (h2 : 2 ≤ prices.length)
    (hne : logReturns prices ≠ []) :
    calculateHistoricalVolatility prices period =
      Real.sqrt (((logReturns prices).map
          (fun x => (x - (logReturns prices).sum / ((logReturns prices).length : ℝ)) ^ 2)).sum /
        ((logReturns prices).length : ℝ)) * Real.sqrt 365 := by
  simp only [calculateHistoricalVolatility]
  rw [if_neg (not_lt.mpr h2), if_neg (by simpa using hne)]

/-- Claim C3 (code bug): the most recent window+1 closes of the two series
below agree (window 2), the code result on the all-ones series is 0, yet on
the other series it is nonzero, because the returns loop runs over the whole
series; moreover the window parameter has no effect at all. -/
theorem window_parameter_unused :
    List.drop 1 [(2:ℝ), 1, 1, 1] = List.drop 1 [(1:ℝ), 1, 1, 1] ∧
    (∀ w1 w2 : ℕ, calculateHistoricalVolatility [(2:ℝ), 1, 1, 1] w1 =
      calculateHistoricalVolatility [(2:ℝ), 1, 1, 1] w2) ∧
    calculateHistoricalVolatility [(1:ℝ), 1, 1, 1] 2 = 0 ∧
    calculateHistoricalVolatility [(2:ℝ), 1, 1, 1] 2 ≠ 0 := by
  have hlrB : logReturns [(1:ℝ), 1, 1, 1] = [0, 0, 0] := by
    rw [logReturns_cons _ _ _ (by norm_num), logReturns_cons _ _ _ (by norm_num),
      logReturns_cons _ _ _ (by norm_num), logReturns_single]
    norm_num [Real.log_one]
  have hlrA : logReturns [(2:ℝ), 1, 1, 1] = [Real.log (1/2), 0, 0] := by
    rw [logReturns_cons _ _ _ (by norm_num), logReturns_cons _ _ _ (by norm_num),
      logReturns_cons _ _ _ (by norm_num), logReturns_single]
    norm_num [Real.log_one]
  refine ⟨rfl, fun w1 w2 => rfl, ?_, ?_⟩
  · rw [calcHV_formula _ _ (by norm_num) (by rw [hlrB]; simp), hlrB]
    norm_num [Real.sqrt_zero]
  · rw [calcHV_formula _ _ (by norm_num) (by rw [hlrA]; simp), hlrA]
    have hL : Real.log ((1:ℝ)/2) < 0 := Real.log_neg (by norm_num) (by norm_num)
    have hvar : (0:ℝ) <
        ([Real.log (1/2), 0, 0].map
          (fun x => (x - ([Real.log (1/2), 0, 0].sum) / (([Real.log (1/2), 0, 0].length : ℝ))) ^ 2)).sum /
        (([Real.log (1/2), 0, 0].length : ℝ)) := by
      simp only [List.map, List.sum_cons, List.sum_nil, List.length]
      norm_num
      nlinarith [mul_pos (neg_pos.mpr hL) (neg_pos.mpr hL)]
    exact (mul_pos (Real.sqrt_pos.mpr hvar) (Real.sqrt_pos.mpr (by norm_num))).ne'

/-- Claim C4, amended: the volatility computation never raises. When at least
2 closes exist but no usable return remains, it returns its own internal
default 0.30, which the route clamp keeps at 0.30; but when fewer than 2
closes exist the route never invokes it and prices with its own caller-side
default 0.25, not 0.30. -/
theorem insufficient_closes_default (closes : List ℝ) :
    (2 ≤ closes.length → logReturns closes = [] →
      calculateHistoricalVolatility closes 30 = 0.3 ∧ routeVolatility closes = 0.3) ∧
    (closes.length < 2 → routeVolatility closes = 0.25) := by
  constructor
  · intro h2 hret
    have hcv : calculateHistoricalVolatility closes 30 = 0.3 := by
      simp only [calculateHistoricalVolatility]
      rw [if_neg (not_lt.mpr h2), hret]
      simp
    refine ⟨hcv, ?_⟩
    rw [routeVolatility, if_pos (by omega), hcv]
    norm_num
  · intro hlen
    rw [routeVolatility, if_neg (by omega)]

/-- Witness for the amended C4 at the two-element series [-1, -2], whose
single consecutive pair is discarded as non-positive. -/
theorem insufficient_closes_default_witness :
    calculateHistoricalVolatility [(-1:ℝ), -2] 30 = 0.3 ∧
    routeVolatility [(-1:ℝ), -2] = 0.3 :=
  (insufficient_closes_default [(-1:ℝ), -2]).1 (by norm_num)
    (by rw [logReturns_cons_skip _ _ _ (by norm_num), logReturns_single])

/-- Counterexample to C4 as stated: with the single positive close [100]
(fewer than 2 usable closes) the route prices with volatility 0.25, not with
a caller-supplied default of 0.30. -/
theorem caller_default_counterexample :
    ([(100:ℝ)]).length < 2 ∧ routeVolatility [(100:ℝ)] = 0.25 ∧ (0.25:ℝ) ≠ 0.3 := by
  refine ⟨by norm_num, ?_, by norm_num⟩
  rw [routeVolatility, if_neg (by norm_num)]

/-! ## Strike ladder (route handler lines 226-238, optionCalc lines 180-186) -/

/-- JavaScript Math.round: round half toward positive infinity. -/
def jsRound (x : ℚ) : ℤ := ⌊x + 1/2⌋

/-- The strikes as generated: base = round(spot/step)*step, one strike
base + i*step for each i from -floor(count/2) to floor(count/2). -/
def strikeList (spot step : ℚ) (count : ℕ) : List ℚ :=
  (List.range (2 * (count / 2) + 1)).map
    (fun j : ℕ =>
      (jsRound (spot / step) : ℚ) * step + ((((j : ℤ) - ((count / 2 : ℕ) : ℤ)) : ℤ) : ℚ) * step)

/-- The strike ladder of the options route handler: the generated strikes
sorted high to low (the sort on line 238). -/
def strikeLadder (spot step : ℚ) (count : ℕ) : List ℚ :=
  List.insertionSort (fun a b => b ≤ a) (strikeList spot step count)

lemma strikeList_101 :
    strikeList 101 5 10 = [75, 80, 85, 90, 95, 100, 105, 110, 115, 120, 125] := by
  have hbase : jsRound ((101:ℚ)/5) = 20 := by norm_num [jsRound]
  unfold strikeList
  simp only [hbase]
  rw [show List.range (2 * (10 / 2) + 1) = [0,1,2,3,4,5,6,7,8,9,10] from rfl]
  norm_num [List.map]

lemma strikeLadder_101 :
    strikeLadder 101 5 10 = [125, 120, 115, 110, 105, 100, 95, 90, 85, 80, 75] := by
  rw [strikeLadder, strikeList_101]
  norm_num [List.insertionSort, List.orderedInsert]

/-- Claim C2, amended: for spot=101, step=5, count=10 the ladder is the
ELEVEN strikes 125..75 in descending order (not ten), because the loop from
-floor(count/2) to +floor(count/2) runs 2*floor(count/2)+1 times; in general
the builder emits 2*floor(count/2)+1 strikes symmetric around the base and
sorts them descending. -/
theorem strike_ladder_eleven :
    strikeLadder 101 5 10 = [125, 120, 115, 110, 105, 100, 95, 90, 85, 80, 75] ∧
    (∀ (spot step : ℚ) (count : ℕ),
      (strikeLadder spot step count).length = 2 * (count / 2) + 1 ∧
      (strikeLadder spot step count).Perm (strikeList spot step count) ∧
      (strikeLadder spot step count).Sorted (fun a b => b ≤ a)) := by
  refine ⟨strikeLadder_101, fun spot step count => ⟨?_, List.perm_insertionSort _ _, ?_⟩⟩
  · rw [strikeLadder, (List.perm_insertionSort _ _).length_eq, strikeList,
      List.length_map, List.length_range]
  · exact List.sorted_insertionSort _ _

/-- Counterexample to C2 as stated: the ladder for spot=101, step=5,
count=10 is not the ten strikes 125..80; it has eleven entries. -/
theorem strike_ladder_counterexample :
    strikeLadder 101 5 10 ≠ [125, 120, 115, 110, 105, 100, 95, 90, 85, 80] ∧
    (strikeLadder 101 5 10).length = 11 := by
  rw [strikeLadder_101]
  refine ⟨fun h => ?_, rfl⟩
  have := congrArg List.length h
  simp at this

/-! ## Expiry ladder (route handler lines 240-262) -/

/-- The default expirations list with the 0-DTE tab. -/
def defaultExpirations : List ℤ := [0, 30, 60, 90, 180]

/-- Math.ceil(Math.abs(target - today) / (1000*60*60*24)), times in
milliseconds. -/
def ceilDays (todayMs targetMs : ℤ) : ℤ :=
  ⌈((|targetMs - todayMs| : ℤ) : ℚ) / 86400000⌉

/-- The daysToExpiration ladder of the options route handler: on a requested
date strictly in the future, drop the 0 entry, prepend the day count and
sort ascending; otherwise keep the default ladder. -/
def daysToExpirationLadder (todayMs : ℤ) (requestedMs : Option ℤ) : List ℤ :=
  match requestedMs with
  | none => defaultExpirations
  | some target =>
    if todayMs < target then
      List.insertionSort (fun a b => a ≤ b)
        (ceilDays todayMs target :: defaultExpirations.filter (fun d => d ≠ 0))
    else defaultExpirations

lemma ceilDays_pos (today target : ℤ) (h : today < target) :
    0 < ceilDays today target := by
  unfold ceilDays
  rw [Int.ceil_pos]
  have h1 : (1:ℤ) ≤ |target - today| := by
    rw [abs_of_pos (by omega)]; omega
  have h2 : (1:ℚ) ≤ ((|target - today| : ℤ) : ℚ) := by exact_mod_cast h1
  positivity

/-- Claim C8: a target date strictly in the future replaces the 0-day entry
with the integer day count and the ladder is re-sorted ascending (exactly 45
days out gives 30,45,60,90,180); a date not in the future leaves the default
ladder 0,30,60,90,180 unchanged. -/
theorem expiry_ladder_custom_date (today target : ℤ) :
    daysToExpirationLadder today none = [0, 30, 60, 90, 180] ∧
    daysToExpirationLadder today (some (today + 45 * 86400000)) = [30, 45, 60, 90, 180] ∧
    (today < target →
      (daysToExpirationLadder today (some target)).Perm
        (ceilDays today target :: [30, 60, 90, 180]) ∧
      (daysToExpirationLadder today (some target)).Sorted (fun a b => a ≤ b) ∧
      (0:ℤ) ∉ daysToExpirationLadder today (some target)) ∧
    (¬ today < target → daysToExpirationLadder today (some target) = [0, 30, 60, 90, 180]) := by
  have hfil : defaultExpirations.filter (fun d => d ≠ 0) = [30, 60, 90, 180] := by decide
  refine ⟨rfl, ?_, fun h => ?_, fun h => ?_⟩
  · have hd : ceilDays today (today + 45 * 86400000) = 45 := by
      unfold ceilDays
      rw [show today + 45 * 86400000 - today = (3888000000:ℤ) by ring,
        abs_of_nonneg (by norm_num),
        show (((3888000000:ℤ):ℚ)) / 86400000 = ((45:ℤ):ℚ) by norm_num,
        Int.ceil_intCast]
    simp only [daysToExpirationLadder]
    rw [if_pos (by omega), hd, hfil]
    decide
  · have hlad : daysToExpirationLadder today (some target) =
        List.insertionSort (fun a b => a ≤ b) (ceilDays today target :: [30, 60, 90, 180]) := by
      simp only [daysToExpirationLadder]
      rw [if_pos h, hfil]
    have hpos := ceilDays_pos today target h
    refine ⟨?_, ?_, ?_⟩
    · rw [hlad]; exact List.perm_insertionSort _ _
    · rw [hlad]; exact List.sorted_insertionSort _ _
    · rw [hlad]
      intro hmem
      rw [(List.perm_insertionSort _ _).mem_iff] at hmem
      simp only [List.mem_cons, List.not_mem_nil, or_false] at hmem
      rcases hmem with h1 | h1 | h1 | h1 | h1 <;> omega
  · simp only [daysToExpirationLadder]
    rw [if_neg h]
    rfl

/-! ## retryWithBackoff (alphaVantageService, frontend bundle lines 81-106) -/

/-- An attempt failure: its message and whether it was detected as a rate
limit (status 429 or a body mentioning a limit). -/
structure AttemptError where
  message : String
  isRateLimit : Bool
deriving DecidableEq, Repr

/-- The sleep before retry number retries+1: initialDelay * 2^retries,
doubled once more for rate-limit failures. -/
def backoffDelay (initialDelay retries : ℕ) (isRL : Bool) : ℕ :=
  if isRL then initialDelay * 2 ^ retries * 2 else initialDelay * 2 ^ retries

/-- The retry loop, with the outcome of each attempt given as a sequence
indexed by the retry counter; returns the final result together with the
list of backoff delays slept. Fuel bounds the loop; retryWithBackoff below
supplies enough for the retry budget. -/
def retryAux {α : Type} (fn : ℕ → Except AttemptError α) (maxRetries initialDelay : ℕ) :
    ℕ → ℕ → Except AttemptError α × List ℕ
  | retries, 0 => (fn retries, [])
  | retries, fuel + 1 =>
    match fn retries with
    | Except.ok a => (Except.ok a, [])
    | Except.error e =>
      if maxRetries ≤ retries then (Except.error e, [])
      else
        let rest := retryAux fn maxRetries initialDelay (retries + 1) fuel
        (rest.1, backoffDelay initialDelay retries e.isRateLimit :: rest.2)

/-- retryWithBackoff: up to maxRetries retries after the first attempt,
re-raising the last error when the budget is exhausted. -/
def retryWithBackoff {α : Type} (fn : ℕ → Except AttemptError α)
    (maxRetries initialDelay : ℕ) : Except AttemptError α × List ℕ :=
  retryAux fn maxRetries initialDelay 0 (maxRetries + 1)

/-- Claim C9: with 3 retries starting at 1000 ms, always-failing attempts
sleep exactly 1000, 2000, 4000 ms when not rate limited and 2000, 4000,
8000 ms when rate limited, and the error of the last attempt is re-raised. -/
theorem retry_backoff_delays (α : Type) (fnN fnR : ℕ → Except AttemptError α)
    (msg : ℕ → String)
    (hN : ∀ i, fnN i = Except.error ⟨msg i, false⟩)
    (hR : ∀ i, fnR i = Except.error ⟨msg i, true⟩) :
    retryWithBackoff fnN 3 1000 = (Except.error ⟨msg 3, false⟩, [1000, 2000, 4000]) ∧
    retryWithBackoff fnR 3 1000 = (Except.error ⟨msg 3, true⟩, [2000, 4000, 8000]) := by
  constructor <;>
    simp [retryWithBackoff, retryAux, hN, hR, backoffDelay]

/-- Witness for C9 with the constant failing attempt "boom". -/
theorem retry_backoff_delays_witness :
    retryWithBackoff (fun _ => Except.error ⟨"boom", false⟩ : ℕ → Except AttemptError ℕ)
      3 1000 = (Except.error ⟨"boom", false⟩, [1000, 2000, 4000]) ∧
    retryWithBackoff (fun _ => Except.error ⟨"boom", true⟩ : ℕ → Except AttemptError ℕ)
      3 1000 = (Except.error ⟨"boom", true⟩, [2000, 4000, 8000]) :=
  retry_backoff_delays ℕ _ _ (fun _ => "boom") (fun _ => rfl) (fun _ => rfl)

/-! ## Option chain assembly of the options route handler (lines 264-352) -/

/-- A contract of the route handler response (no rho there). inTheMoney is
the JavaScript boolean, embedded as a proposition. -/
structure RouteContract where
  strike : ℝ
  price : ℝ
  delta : ℝ
  gamma : ℝ
  theta : ℝ
  vega : ℝ
  inTheMoney : Prop

/-- Time to expiry of the route: 0 DTE is priced as 1 day. -/
noncomputable def routeT (days : ℝ) : ℝ :=
  if days = 0 then 1 / 365 else days / 365

/-- The call contract the route pushes on the success path (price floored
at 0.01, lines 306-314). -/
noncomputable def routeCallContract (spot vol r T K callPrice : ℝ) : RouteContract :=
  let d1 := (Real.log (spot / K) + (r + vol * vol / 2) * T) / (vol * Real.sqrt T)
  let d2 := d1 - vol * Real.sqrt T
  let normDist := Real.exp (-d1 * d1 / 2) / Real.sqrt (2 * Real.pi)
  { strike := K
    price := max 0.01 callPrice
    delta := normalCDF d1
    gamma := normDist / (spot * vol * Real.sqrt T)
    theta := (-spot * normDist * vol / (2 * Real.sqrt T) -
      r * K * Real.exp (-r * T) * normalCDF d2) / 365
    vega := spot * Real.sqrt T * normDist / 100
    inTheMoney := spot > K }

/-- The put contract the route pushes on the success path (lines 317-325). -/
noncomputable def routePutContract (spot vol r T K putPrice : ℝ) : RouteContract :=
  let d1 := (Real.log (spot / K) + (r + vol * vol / 2) * T) / (vol * Real.sqrt T)
  let d2 := d1 - vol * Real.sqrt T
  let normDist := Real.exp (-d1 * d1 / 2) / Real.sqrt (2 * Real.pi)
  { strike := K
    price := max 0.01 putPrice
    delta := normalCDF d1 - 1
    gamma := normDist / (spot * vol * Real.sqrt T)
    theta := (-spot * normDist * vol / (2 * Real.sqrt T) +
      r * K * Real.exp (-r * T) * normalCDF (-d2)) / 365
    vega := spot * Real.sqrt T * normDist / 100
    inTheMoney := spot < K }

/-- The placeholder contract of the catch block, lines 329-346: price 0.01,
all Greeks zero, not in the money. -/
def routePlaceholder (K : ℝ) : RouteContract :=
  ⟨K, 0.01, 0, 0, 0, 0, False⟩

/-- One strike of the route chain: try both prices, fall back to the
placeholder pair if pricing throws. -/
noncomputable def routeStrikeEntry (spot vol r T K : ℝ) : RouteContract × RouteContract :=
  match blackScholes "call" spot K T r vol, blackScholes "put" spot K T r vol with
  | Except.ok callPrice, Except.ok putPrice =>
    (routeCallContract spot vol r T K callPrice, routePutContract spot vol r T K putPrice)
  | _, _ => (routePlaceholder K, routePlaceholder K)

/-- Math.round(currentPrice / 5) * 5, the base strike of lines 227. -/
noncomputable def routeBaseStrike (spot : ℝ) : ℝ := (⌊spot / 5 + 1/2⌋ : ℤ) * 5

/-- The 11 strikes of lines 232-238, sorted high to low. -/
noncomputable def routeStrikes (spot : ℝ) : List ℝ :=
  List.insertionSort (fun a b => b ≤ a)
    ((List.range 11).map (fun j : ℕ => routeBaseStrike spot + ((((j : ℤ) - 5) : ℤ) : ℝ) * 5))

/-- The calls array for one expiry tab of the route chain. -/
noncomputable def routeExpiryCalls (spot vol r days : ℝ) : List RouteContract :=
  (routeStrikes spot).map (fun K => (routeStrikeEntry spot vol r (routeT days) K).1)

/-- The puts array for one expiry tab of the route chain. -/
noncomputable def routeExpiryPuts (spot vol r days : ℝ) : List RouteContract :=
  (routeStrikes spot).map (fun K => (routeStrikeEntry spot vol r (routeT days) K).2)

lemma routeStrikeEntry_ok (spot vol r T K cp pp : ℝ)
    (hc : blackScholes "call" spot K T r vol = Except.ok cp)
    (hp : blackScholes "put" spot K T r vol = Except.ok pp) :
    routeStrikeEntry spot vol r T K =
      (routeCallContract spot vol r T K cp, routePutContract spot vol r T K pp) := by
  unfold routeStrikeEntry
  rw [hc, hp]

lemma routeStrikeEntry_err (spot vol r T K : ℝ) (e : String)
    (hc : blackScholes "call" spot K T r vol = Except.error e) :
    routeStrikeEntry spot vol r T K = (routePlaceholder K, routePlaceholder K) := by
  unfold routeStrikeEntry
  rw [hc]

/-- When the call side prices, so does the put side: the validation
branches of blackScholes do not depend on the option kind. -/
lemma blackScholes_put_ok_of_call_ok (S K T r v cp : ℝ)
    (h : blackScholes "call" S K T r v = Except.ok cp) :
    ∃ pp, blackScholes "put" S K T r v = Except.ok pp := by
  unfold blackScholes at h ⊢
  by_cases h1 : S ≤ 0
  · rw [if_pos h1] at h; exact absurd h (by simp)
  rw [if_neg h1] at h ⊢
  by_cases h2 : K ≤ 0
  · rw [if_pos h2] at h; exact absurd h (by simp)
  rw [if_neg h2] at h ⊢
  by_cases h3 : T ≤ 0
  · rw [if_pos h3] at h; exact absurd h (by simp)
  rw [if_neg h3] at h ⊢
  by_cases h4 : v ≤ 0
  · rw [if_pos h4] at h; exact absurd h (by simp)
  rw [if_neg h4] at h ⊢
  by_cases h5 : T < 0.00001
  · rw [if_pos h5, if_neg (show ¬ ("put" = "call") by decide)]
    exact ⟨_, rfl⟩
  · rw [if_neg h5, if_neg (show ¬ ("put" = "call") by decide), if_pos rfl]
    exact ⟨_, rfl⟩

/-- Claim C5, amended: in the route handler a pricing failure at one strike
yields the placeholder pair there (price 0.01, Greeks zero, not in the
money), every successfully priced strike keeps its normal contracts, and
every expiry tab still carries one contract per strike; but in
generateOptionChain of optionCalc.js the placeholder price is 0, not 0.01
(see the counterexample). -/
theorem per_strike_placeholder (spot vol r T K : ℝ) (e : String)
    (hE : blackScholes "call" spot K T r vol = Except.error e) :
    routeStrikeEntry spot vol r T K = (routePlaceholder K, routePlaceholder K) ∧
    (routePlaceholder K).price = 0.01 ∧ (routePlaceholder K).delta = 0 ∧
    (routePlaceholder K).gamma = 0 ∧ (routePlaceholder K).theta = 0 ∧
    (routePlaceholder K).vega = 0 ∧ ¬ (routePlaceholder K).inTheMoney ∧
    (∀ K2 cp pp : ℝ, blackScholes "call" spot K2 T r vol = Except.ok cp →
      blackScholes "put" spot K2 T r vol = Except.ok pp →
      routeStrikeEntry spot vol r T K2 =
        (routeCallContract spot vol r T K2 cp, routePutContract spot vol r T K2 pp)) ∧
    (∀ days : ℝ, (routeExpiryCalls spot vol r days).length = (routeStrikes spot).length ∧
      (routeExpiryPuts spot vol r days).length = (routeStrikes spot).length) := by
  refine ⟨routeStrikeEntry_err spot vol r T K e hE, rfl, rfl, rfl, rfl, rfl, fun h => h,
    fun K2 cp pp hc hp => routeStrikeEntry_ok spot vol r T K2 cp pp hc hp,
    fun days => ⟨?_, ?_⟩⟩
  · rw [routeExpiryCalls, List.length_map]
  · rw [routeExpiryPuts, List.length_map]

/-- Witness for the amended C5 at spot 2, strike -25 (the strike validation
throws there). -/
theorem per_strike_placeholder_witness :
    routeStrikeEntry 2 0.25 0.035 1 (-25) =
      (routePlaceholder (-25), routePlaceholder (-25)) ∧
    (routePlaceholder (-25:ℝ)).price = 0.01 ∧ (routePlaceholder (-25:ℝ)).delta = 0 ∧
    (routePlaceholder (-25:ℝ)).gamma = 0 ∧ (routePlaceholder (-25:ℝ)).theta = 0 ∧
    (routePlaceholder (-25:ℝ)).vega = 0 ∧ ¬ (routePlaceholder (-25:ℝ)).inTheMoney ∧
    (∀ K2 cp pp : ℝ, blackScholes "call" 2 K2 1 0.035 0.25 = Except.ok cp →
      blackScholes "put" 2 K2 1 0.035 0.25 = Except.ok pp →
      routeStrikeEntry 2 0.25 0.035 1 K2 =
        (routeCallContract 2 0.25 0.035 1 K2 cp, routePutContract 2 0.25 0.035 1 K2 pp)) ∧
    (∀ days : ℝ, (routeExpiryCalls 2 0.25 0.035 days).length = (routeStrikes 2).length ∧
      (routeExpiryPuts 2 0.25 0.035 days).length = (routeStrikes 2).length) :=
  per_strike_placeholder 2 0.25 0.035 1 (-25) "Strike price must be positive"
    (by unfold blackScholes; rw [if_neg (by norm_num), if_pos (by norm_num)])

/-- And conversely: when the put side prices, so does the call side. -/
lemma blackScholes_call_ok_of_put_ok (S K T r v pp : ℝ)
    (h : blackScholes "put" S K T r v = Except.ok pp) :
    ∃ cp, blackScholes "call" S K T r v = Except.ok cp := by
  unfold blackScholes at h ⊢
  by_cases h1 : S ≤ 0
  · rw [if_pos h1] at h; exact absurd h (by simp)
  rw [if_neg h1] at h ⊢
  by_cases h2 : K ≤ 0
  · rw [if_pos h2] at h; exact absurd h (by simp)
  rw [if_neg h2] at h ⊢
  by_cases h3 : T ≤ 0
  · rw [if_pos h3] at h; exact absurd h (by simp)
  rw [if_neg h3] at h ⊢
  by_cases h4 : v ≤ 0
  · rw [if_pos h4] at h; exact absurd h (by simp)
  rw [if_neg h4] at h ⊢
  by_cases h5 : T < 0.00001
  · rw [if_pos h5, if_pos rfl]
    exact ⟨_, rfl⟩
  · rw [if_neg h5, if_pos rfl]
    exact ⟨_, rfl⟩

lemma routeCall_facts (spot vol r T K : ℝ) :
    0 ≤ (routeStrikeEntry spot vol r T K).1.delta ∧
    (routeStrikeEntry spot vol r T K).1.delta ≤ 1 ∧
    (routeStrikeEntry spot vol r T K).1.strike = K ∧
    ((routeStrikeEntry spot vol r T K).1.inTheMoney → spot > K) ∧
    (∀ y : ℝ, blackScholes "call" spot K T r vol = Except.ok y →
      ((routeStrikeEntry spot vol r T K).1.inTheMoney ↔ spot > K)) := by
  cases hcall : blackScholes "call" spot K T r vol with
  | error e =>
    rw [routeStrikeEntry_err spot vol r T K e hcall]
    exact ⟨le_refl 0, by norm_num [routePlaceholder], rfl, fun h => h.elim,
      fun y hy => Except.noConfusion hy⟩
  | ok cp =>
    obtain ⟨pp, hput⟩ := blackScholes_put_ok_of_call_ok spot K T r vol cp hcall
    rw [routeStrikeEntry_ok spot vol r T K cp pp hcall hput]
    exact ⟨(normalCDF_pos _).le, (normalCDF_lt_one _).le, rfl, fun h => h,
      fun y hy => Iff.rfl⟩

lemma routePut_facts (spot vol r T K : ℝ) :
    -1 ≤ (routeStrikeEntry spot vol r T K).2.delta ∧
    (routeStrikeEntry spot vol r T K).2.delta ≤ 0 ∧
    (routeStrikeEntry spot vol r T K).2.strike = K ∧
    ((routeStrikeEntry spot vol r T K).2.inTheMoney → spot < K) ∧
    (∀ y : ℝ, blackScholes "put" spot K T r vol = Except.ok y →
      ((routeStrikeEntry spot vol r T K).2.inTheMoney ↔ spot < K)) := by
  cases hcall : blackScholes "call" spot K T r vol with
  | error e =>
    rw [routeStrikeEntry_err spot vol r T K e hcall]
    refine ⟨by norm_num [routePlaceholder], le_refl 0, rfl, fun h => h.elim, fun y hy => ?_⟩
    obtain ⟨cp2, hcall2⟩ := blackScholes_call_ok_of_put_ok spot K T r vol y hy
    exact absurd (hcall.symm.trans hcall2) (by simp)
  | ok cp =>
    obtain ⟨pp, hput⟩ := blackScholes_put_ok_of_call_ok spot K T r vol cp hcall
    rw [routeStrikeEntry_ok spot vol r T K cp pp hcall hput]
    have h1 := normalCDF_pos
      ((Real.log (spot / K) + (r + vol * vol / 2) * T) / (vol * Real.sqrt T))
    have h2 := normalCDF_lt_one
      ((Real.log (spot / K) + (r + vol * vol / 2) * T) / (vol * Real.sqrt T))
    refine ⟨?_, ?_, rfl, fun h => h, fun y hy => Iff.rfl⟩
    · show -1 ≤ normalCDF
        ((Real.log (spot / K) + (r + vol * vol / 2) * T) / (vol * Real.sqrt T)) - 1
      linarith
    · show normalCDF
        ((Real.log (spot / K) + (r + vol * vol / 2) * T) / (vol * Real.sqrt T)) - 1 ≤ 0
      linarith

/-- Claim C6, amended: in every route chain, call deltas lie in [0,1] and
put deltas in [-1,0] (placeholders included); a contract flagged in the
money really has spot beyond its strike; and for every strike whose pricing
succeeds the flag equals spot > strike for the call and spot < strike for
the put. Placeholder contracts of failed strikes are never flagged in the
money even when spot > strike (see the counterexample). -/
theorem chain_contract_invariants (spot vol r days : ℝ) (c p : RouteContract)
    (hc : c ∈ routeExpiryCalls spot vol r days)
    (hp : p ∈ routeExpiryPuts spot vol r days) :
    (0 ≤ c.delta ∧ c.delta ≤ 1 ∧ (c.inTheMoney → spot > c.strike)) ∧
    (-1 ≤ p.delta ∧ p.delta ≤ 0 ∧ (p.inTheMoney → spot < p.strike)) ∧
    (∀ y : ℝ, blackScholes "call" spot c.strike (routeT days) r vol = Except.ok y →
      (c.inTheMoney ↔ spot > c.strike)) ∧
    (∀ y : ℝ, blackScholes "put" spot p.strike (routeT days) r vol = Except.ok y →
      (p.inTheMoney ↔ spot < p.strike)) := by
  obtain ⟨K, hKmem, hcK⟩ := List.mem_map.mp hc
  obtain ⟨K2, hK2mem, hpK⟩ := List.mem_map.mp hp
  subst hcK
  subst hpK
  obtain ⟨ha, hb, hstrike, himp, hiff⟩ := routeCall_facts spot vol r (routeT days) K
  obtain ⟨ha2, hb2, hstrike2, himp2, hiff2⟩ := routePut_facts spot vol r (routeT days) K2
  rw [hstrike, hstrike2]
  exact ⟨⟨ha, hb, himp⟩, ⟨ha2, hb2, himp2⟩, hiff, hiff2⟩

lemma routeStrikes_spot_two : (-25:ℝ) ∈ routeStrikes 2 := by
  have hbase : (⌊(2:ℝ)/5 + 1/2⌋ : ℤ) = 0 := by norm_num
  rw [routeStrikes, (List.perm_insertionSort _ _).mem_iff]
  refine List.mem_map.mpr ⟨0, by norm_num, ?_⟩
  rw [routeBaseStrike, hbase]
  push_cast
  ring

lemma bs_neg_strike_err :
    blackScholes "call" 2 (-25) (routeT 30) 0.035 0.25 =
      Except.error "Strike price must be positive" := by
  unfold blackScholes
  rw [if_neg (by norm_num), if_pos (by norm_num)]

lemma placeholder_mem_calls :
    routePlaceholder (-25) ∈ routeExpiryCalls 2 0.25 0.035 30 := by
  rw [routeExpiryCalls]
  refine List.mem_map.mpr ⟨-25, routeStrikes_spot_two, ?_⟩
  rw [routeStrikeEntry_err 2 0.25 0.035 (routeT 30) (-25) _ bs_neg_strike_err]

lemma placeholder_mem_puts :
    routePlaceholder (-25) ∈ routeExpiryPuts 2 0.25 0.035 30 := by
  rw [routeExpiryPuts]
  refine List.mem_map.mpr ⟨-25, routeStrikes_spot_two, ?_⟩
  rw [routeStrikeEntry_err 2 0.25 0.035 (routeT 30) (-25) _ bs_neg_strike_err]

/-- Witness for the amended C6 at the placeholder contract of strike -25 in
the spot-2 chain. -/
theorem chain_contract_invariants_witness :
    (0 ≤ (routePlaceholder (-25:ℝ)).delta ∧ (routePlaceholder (-25:ℝ)).delta ≤ 1 ∧
      ((routePlaceholder (-25:ℝ)).inTheMoney → (2:ℝ) > (routePlaceholder (-25:ℝ)).strike)) ∧
    (-1 ≤ (routePlaceholder (-25:ℝ)).delta ∧ (routePlaceholder (-25:ℝ)).delta ≤ 0 ∧
      ((routePlaceholder (-25:ℝ)).inTheMoney → (2:ℝ) < (routePlaceholder (-25:ℝ)).strike)) ∧
    (∀ y : ℝ, blackScholes "call" 2 (routePlaceholder (-25:ℝ)).strike (routeT 30) 0.035 0.25 =
        Except.ok y →
      ((routePlaceholder (-25:ℝ)).inTheMoney ↔ (2:ℝ) > (routePlaceholder (-25:ℝ)).strike)) ∧
    (∀ y : ℝ, blackScholes "put" 2 (routePlaceholder (-25:ℝ)).strike (routeT 30) 0.035 0.25 =
        Except.ok y →
      ((routePlaceholder (-25:ℝ)).inTheMoney ↔ (2:ℝ) < (routePlaceholder (-25:ℝ)).strike)) :=
  chain_contract_invariants 2 0.25 0.035 30 (routePlaceholder (-25)) (routePlaceholder (-25))
    placeholder_mem_calls placeholder_mem_puts

/-- Counterexample to C6 as stated: the spot-2 route chain contains a call
contract at strike -25 whose inTheMoney flag is false although
spot = 2 > -25 = strike. -/
theorem itm_flag_counterexample :
    routePlaceholder (-25) ∈ routeExpiryCalls 2 0.25 0.035 30 ∧
    ¬ (routePlaceholder (-25:ℝ)).inTheMoney ∧
    (2:ℝ) > (routePlaceholder (-25:ℝ)).strike :=
  ⟨placeholder_mem_calls, fun h => h, by norm_num [routePlaceholder]⟩

/-! ## generateOptionChain (server/optionCalc.js lines 160-277) -/

/-- A contract of generateOptionChain (this one carries rho). -/
structure CalcContract where
  strike : ℝ
  price : ℝ
  delta : ℝ
  gamma : ℝ
  theta : ℝ
  vega : ℝ
  rho : ℝ
  inTheMoney : Prop

/-- The call contract of the success path, lines 224-233 (price not
floored there). -/
noncomputable def calcCallContract (S vol r T K callPrice : ℝ) : CalcContract :=
  let d1 := (Real.log (S / K) + (r + vol * vol / 2) * T) / (vol * Real.sqrt T)
  let d2 := d1 - vol * Real.sqrt T
  { strike := K
    price := callPrice
    delta := normalCDF d1
    gamma := 0.3989423 * Real.exp (-d1 * d1 / 2) / (S * vol * Real.sqrt T)
    theta := (-S * vol * 0.3989423 * Real.exp (-d1 * d1 / 2) / (2 * Real.sqrt T) -
      r * K * Real.exp (-r * T)) / 365
    vega := S * Real.sqrt T * 0.3989423 * Real.exp (-d1 * d1 / 2) / 100
    rho := K * T * Real.exp (-r * T) * normalCDF d2 / 100
    inTheMoney := S > K }

/-- The put contract of the success path, lines 236-245. -/
noncomputable def calcPutContract (S vol r T K putPrice : ℝ) : CalcContract :=
  let d1 := (Real.log (S / K) + (r + vol * vol / 2) * T) / (vol * Real.sqrt T)
  let d2 := d1 - vol * Real.sqrt T
  { strike := K
    price := putPrice
    delta := normalCDF d1 - 1
    gamma := 0.3989423 * Real.exp (-d1 * d1 / 2) / (S * vol * Real.sqrt T)
    theta := (-S * vol * 0.3989423 * Real.exp (-d1 * d1 / 2) / (2 * Real.sqrt T) -
      r * K * Real.exp (-r * T) + r * K * Real.exp (-r * T)) / 365
    vega := S * Real.sqrt T * 0.3989423 * Real.exp (-d1 * d1 / 2) / 100
    rho := -K * T * Real.exp (-r * T) * normalCDF (-d2) / 100
    inTheMoney := S < K }

/-- The placeholder contract of the catch block, lines 249-269: price 0. -/
def calcPlaceholder (K : ℝ) : CalcContract :=
  ⟨K, 0, 0, 0, 0, 0, 0, False⟩

/-- One strike of generateOptionChain: the priced pair or the placeholder
pair when pricing throws. -/
noncomputable def calcStrikeEntry (S vol r T K : ℝ) : CalcContract × CalcContract :=
  match blackScholes "call" S K T r vol, blackScholes "put" S K T r vol with
  | Except.ok cp, Except.ok pp =>
    (calcCallContract S vol r T K cp, calcPutContract S vol r T K pp)
  | _, _ => (calcPlaceholder K, calcPlaceholder K)

/-- The strikes of lines 181-186 (generated ascending, never sorted). -/
noncomputable def calcStrikes (currentPrice : ℝ) (strikePriceCount : ℕ)
    (strikePriceStep : ℝ) : List ℝ :=
  (List.range (2 * (strikePriceCount / 2) + 1)).map
    (fun j : ℕ =>
      ((⌊currentPrice / strikePriceStep + 1/2⌋ : ℤ) : ℝ) * strikePriceStep +
        ((((j : ℤ) - ((strikePriceCount / 2 : ℕ) : ℤ)) : ℤ) : ℝ) * strikePriceStep)

/-- generateOptionChain: validates the price, repairs the volatility (0.3
default when non-positive, capped at 2), then assembles calls and puts per
expiry as an association list keyed by the day count, with T = days/365. -/
noncomputable def generateOptionChain (currentPrice volatility riskFreeRate : ℝ)
    (daysToExpiration : List ℝ) (strikePriceCount : ℕ) (strikePriceStep : ℝ) :
    Except String (List (ℝ × List CalcContract × List CalcContract)) :=
  if currentPrice ≤ 0 then Except.error "Current price must be positive"
  else
    let vol1 := if volatility ≤ 0 then 0.3 else volatility
    let vol2 := if 2 < vol1 then 2 else vol1
    let strikes := calcStrikes currentPrice strikePriceCount strikePriceStep
    Except.ok (daysToExpiration.map (fun days =>
      (days,
        strikes.map (fun K => (calcStrikeEntry currentPrice vol2 riskFreeRate (days / 365) K).1),
        strikes.map (fun K => (calcStrikeEntry currentPrice vol2 riskFreeRate (days / 365) K).2))))

lemma calcStrikeEntry_err (S vol r T K : ℝ) (e : String)
    (hc : blackScholes "call" S K T r vol = Except.error e) :
    calcStrikeEntry S vol r T K = (calcPlaceholder K, calcPlaceholder K) := by
  unfold calcStrikeEntry
  rw [hc]

/-- Counterexample to C5 as stated: in generateOptionChain of optionCalc.js
the spot-2 chain holds a placeholder call contract at strike -25 whose price
is 0 -- not floored at the positive tick 0.01 -- while the chain as a whole
is still produced. -/
theorem placeholder_price_zero_counterexample :
    generateOptionChain 2 0.25 0.035 [30] 10 5 =
      Except.ok [((30:ℝ),
        (calcStrikes 2 10 5).map (fun K => (calcStrikeEntry 2 0.25 0.035 ((30:ℝ) / 365) K).1),
        (calcStrikes 2 10 5).map (fun K => (calcStrikeEntry 2 0.25 0.035 ((30:ℝ) / 365) K).2))] ∧
    calcPlaceholder (-25) ∈
      (calcStrikes 2 10 5).map (fun K => (calcStrikeEntry 2 0.25 0.035 ((30:ℝ) / 365) K).1) ∧
    (calcPlaceholder (-25:ℝ)).price = 0 ∧ ¬ (calcPlaceholder (-25:ℝ)).price = 0.01 ∧
    ¬ 0 < (calcPlaceholder (-25:ℝ)).price := by
  have hbase : (⌊(2:ℝ)/5 + 1/2⌋ : ℤ) = 0 := by norm_num
  have hE : blackScholes "call" 2 (-25) ((30:ℝ)/365) 0.035 0.25 =
      Except.error "Strike price must be positive" := by
    unfold blackScholes
    rw [if_neg (by norm_num), if_pos (by norm_num)]
  refine ⟨?_, ?_, rfl, by norm_num [calcPlaceholder], by norm_num [calcPlaceholder]⟩
  · simp only [generateOptionChain]
    rw [if_neg (by norm_num), if_neg (by norm_num), if_neg (by norm_num)]
    simp only [List.map_cons, List.map_nil]
  · refine List.mem_map.mpr ⟨-25, ?_, ?_⟩
    · refine List.mem_map.mpr ⟨0, by norm_num, ?_⟩
      rw [hbase]
      push_cast
      ring
    · rw [calcStrikeEntry_err 2 0.25 0.035 ((30:ℝ)/365) (-25) _ hE]

end StockOptions
